import Mathlib

/-!
Shallow embedding of the CUDA-plugin transpose operator adapter
(`src/modules/cuda_plugin/src/ops/transpose.cpp`, class `TransposeOp`).

The adapter derives tensor layout metadata (extents, row-major strides,
axis modes) from a graph node at construction time, resolves the output-axis
permutation either statically (no second input, or a constant second input)
or at execution time (device-to-host download of the permutation tensor),
and invokes the cuTENSOR permutation primitive.

Construction is modelled as an `Except`-valued function over a node record;
execution is modelled as a state-passing function that returns the sequence
of externally visible events (downloads, synchronizations, descriptor
initializations, the primitive invocation) together with the call result and
the adapter state after the call.
-/

namespace CUDAPlugin

/-- Element types (`ngraph::element::Type_t`), restricted to the kinds the
transpose adapter distinguishes: the eight integer kinds of its decode
switch, floating kinds, and boolean. -/
inductive Type_t where
  | i8 | i16 | i32 | i64
  | u8 | u16 | u32 | u64
  | f16 | bf16 | f32 | f64 | boolean
deriving DecidableEq, Repr

/-- The eight integer element kinds handled by `TransposeOp::permutation`'s
switch statement. -/
def Type_t.isSupportedInteger : Type_t → Bool
  | .i8 | .i16 | .i32 | .i64 | .u8 | .u16 | .u32 | .u64 => true
  | _ => false

/-- Signed integer element kinds. -/
def Type_t.isSigned : Type_t → Bool
  | .i8 | .i16 | .i32 | .i64 => true
  | _ => false

/-- `sizeof` of one element, in bytes. -/
def Type_t.sizeofBytes : Type_t → Nat
  | .i8 | .u8 | .boolean => 1
  | .i16 | .u16 | .f16 | .bf16 => 2
  | .i32 | .u32 | .f32 => 4
  | .i64 | .u64 | .f64 => 8

/-- Largest mathematical integer representable by an integer element kind. -/
def Type_t.maxEncodable : Type_t → Int
  | .i8 => 2 ^ 7 - 1
  | .i16 => 2 ^ 15 - 1
  | .i32 => 2 ^ 31 - 1
  | .i64 => 2 ^ 63 - 1
  | .u8 => 2 ^ 8 - 1
  | .u16 => 2 ^ 16 - 1
  | .u32 => 2 ^ 32 - 1
  | .u64 => 2 ^ 64 - 1
  | _ => 0

/-- Modular reduction into the value range of a `w`-bit unsigned integer. -/
def wrapUnsigned (w : Nat) (v : Int) : Int := v % (2 ^ w : Int)

/-- Modular reduction into the value range of a `w`-bit two's-complement
signed integer. -/
def wrapSigned (w : Nat) (v : Int) : Int :=
  (v + 2 ^ (w - 1)) % 2 ^ w - 2 ^ (w - 1)

/-- C++ integral conversion of a mathematical integer into a value of the
given element kind (modular, as for unsigned and two's-complement signed
targets). Non-integer kinds are left untouched (not used for them). -/
def Type_t.convertTo (t : Type_t) (v : Int) : Int :=
  if t.isSupportedInteger then
    if t.isSigned then wrapSigned (8 * t.sizeofBytes) v
    else wrapUnsigned (8 * t.sizeofBytes) v
  else v

/-- `static_cast<int>` of a stored element value: C `int` is 32-bit
two's complement. -/
def castToCInt (v : Int) : Int := wrapSigned 32 v

/-- Producer of the second (permutation) input: either a compile-time
`ngraph::op::Constant` whose stored element values are `vals`, or any
other node. -/
inductive Producer where
  | constant (vals : List Int)
  | nonConstant
deriving DecidableEq, Repr

/-- One input of the graph node: its static shape, element type, and the
producer of the value feeding it. -/
structure NodeInput where
  shape : List Nat
  etype : Type_t
  producer : Producer
deriving DecidableEq, Repr

/-- The part of an `ngraph::Node` the transpose adapter reads: the input
list and the single output's static shape. -/
structure NgraphNode where
  inputs : List NodeInput
  outputShape : List Nat
deriving DecidableEq, Repr

/-- `node.input(i)`: lookup of the i-th input; out-of-range indices have no
input (the ngraph accessor fails for them). -/
def NgraphNode.input? (n : NgraphNode) (i : Nat) : Option NodeInput :=
  n.inputs.get? i

/-- Error kinds of the adapter, per the spec's taxonomy: `invalidGraph` for
construction-time input-cardinality contract violations (`Expects` during
construction, including out-of-range input access), `unsupportedType` for
the non-integer runtime permutation type, `primitiveFailure` for a
non-success status of the cuTENSOR primitive, and `preconditionViolation`
for the execution-time `Expects` on tensor counts. -/
inductive Err where
  | invalidGraph
  | unsupportedType
  | primitiveFailure
  | preconditionViolation
deriving DecidableEq, Repr

/-- A typed scalar operand. -/
structure Scalar where
  etype : Type_t
  value : Int
deriving DecidableEq, Repr

/-- `NumericConst<constants::one>(t)`: the multiplicative identity scalar of
element type `t`. -/
def numericConstOne (t : Type_t) : Scalar := { etype := t, value := 1 }

/-- Externally visible events of one execution call: a device-to-host
transfer of a byte count, a stream synchronization, a tensor-descriptor
initialization, and the cuTENSOR permutation invocation. -/
inductive Event where
  | download (byteCount : Nat)
  | sync
  | initDescriptor (rank : Nat) (extents strides : List Int) (etype : Type_t)
  | permuteCall (alpha : Scalar) (inputMode outputMode : List Int)
      (etype : Type_t) (stream : Nat)
deriving DecidableEq, Repr

/-- `TransposeOp::extractInputExtents`: the primary input's shape, as
int64 extents. Fails when the node has no input 0. -/
def extractInputExtents (node : NgraphNode) : Except Err (List Int) :=
  match node.input? 0 with
  | some inp => .ok (inp.shape.map Int.ofNat)
  | none => .error .invalidGraph

/-- `TransposeOp::extractOutputExtents`: the output's shape, as int64
extents. -/
def extractOutputExtents (node : NgraphNode) : Except Err (List Int) :=
  .ok (node.outputShape.map Int.ofNat)

/-- `ngraph::row_major_stride(shape, axis)`: the loop multiplies
`shape[i]` for `i` from `shape.size()-1` down to `axis+1`, starting
from 1. -/
def row_major_stride (shape : List Nat) (axis : Nat) : Nat :=
  ((shape.drop (axis + 1)).reverse).foldl (fun s e => s * e) 1

/-- `TransposeOp::extractInputStrides`: row-major strides of the primary
input's shape. -/
def extractInputStrides (node : NgraphNode) : Except Err (List Int) :=
  match node.input? 0 with
  | some inp =>
    .ok ((List.range inp.shape.length).map
      fun i => Int.ofNat (row_major_stride inp.shape i))
  | none => .error .invalidGraph

/-- `TransposeOp::extractOutputStrides`: row-major strides of the output's
shape. -/
def extractOutputStrides (node : NgraphNode) : Except Err (List Int) :=
  .ok ((List.range node.outputShape.length).map
    fun i => Int.ofNat (row_major_stride node.outputShape i))

/-- `TransposeOp::extractExtents`: the map from axis index to extent. -/
def extractExtents (input_extents : List Int) : List (Nat × Int) :=
  (List.range input_extents.length).map fun i => (i, input_extents.getD i 0)

/-- `TransposeOp::extractInputMode`: the identity axis ordering
`[0, 1, ..., numDims-1]`. -/
def extractInputMode (numDims : Nat) : List Int :=
  (List.range numDims).map Int.ofNat

/-- `TransposeOp::isPermutationTensorSpecified`: `Expects` 1 or 2 inputs,
then reports whether a second (permutation) input is present. -/
def isPermutationTensorSpecified (node : NgraphNode) : Except Err Bool :=
  let numInputs := node.inputs.length
  if numInputs = 1 ∨ numInputs = 2 then .ok (numInputs = 2)
  else .error .invalidGraph

/-- `ngraph::op::Constant::cast_vector<int>`: each stored element value is
converted to a C `int`. -/
def cast_vector_int (vals : List Int) : List Int := vals.map castToCInt

/-- `TransposeOp::tryToExtractPermutation`: with a second input whose
producer is a compile-time constant, its values cast to `int`; with a
non-constant producer, no static permutation; with no second input, the
reverse of the identity axis ordering of the primary input's rank. -/
def tryToExtractPermutation (node : NgraphNode) :
    Except Err (Option (List Int)) := do
  let specified ← isPermutationTensorSpecified node
  if specified then
    match node.input? 1 with
    | some inp =>
      match inp.producer with
      | .constant vals => pure (some (cast_vector_int vals))
      | .nonConstant => pure none
    | none => .error .invalidGraph
  else
    match node.input? 0 with
    | some inp => pure (some ((extractInputMode inp.shape.length).reverse))
    | none => .error .invalidGraph

/-- `TransposeOp::extractPermutationElementsType`: `Expects` 1 or 2 inputs;
with one input the recorded type is `i32`, with two it is the second
input's element type. -/
def extractPermutationElementsType (node : NgraphNode) : Except Err Type_t :=
  if 0 < node.inputs.length ∧ node.inputs.length ≤ 2 then
    if node.inputs.length = 1 then .ok .i32
    else
      match node.input? 1 with
      | some inp => .ok inp.etype
      | none => .error .invalidGraph
  else .error .invalidGraph

/-- The adapter state computed once by the `TransposeOp` constructor. -/
structure TransposeOp where
  inputExtents_ : List Int
  dimsNumber_ : Nat
  outputExtents_ : List Int
  inputStrides_ : List Int
  outputStrides_ : List Int
  inputMode_ : List Int
  outputMode_ : Option (List Int)
  extents_ : List (Nat × Int)
  inputElementsType_ : Type_t
  permutationElementsType_ : Type_t
deriving DecidableEq, Repr

/-- The `TransposeOp` constructor: the member initializers of
`TransposeOp::TransposeOp`, in order. -/
def TransposeOp.construct (node : NgraphNode) : Except Err TransposeOp := do
  let inputExtents ← extractInputExtents node
  let dimsNumber := inputExtents.length
  let outputExtents ← extractOutputExtents node
  let inputStrides ← extractInputStrides node
  let outputStrides ← extractOutputStrides node
  let inputMode := extractInputMode dimsNumber
  let outputMode ← tryToExtractPermutation node
  let extents := extractExtents inputExtents
  let inputElementsType ←
    match node.input? 0 with
    | some inp => Except.ok inp.etype
    | none => Except.error Err.invalidGraph
  let permutationElementsType ← extractPermutationElementsType node
  pure {
    inputExtents_ := inputExtents
    dimsNumber_ := dimsNumber
    outputExtents_ := outputExtents
    inputStrides_ := inputStrides
    outputStrides_ := outputStrides
    inputMode_ := inputMode
    outputMode_ := outputMode
    extents_ := extents
    inputElementsType_ := inputElementsType
    permutationElementsType_ := permutationElementsType }

/-- Little-endian interpretation of a byte list as a natural number. -/
def bytesToNatLE : List Nat → Nat
  | [] => 0
  | b :: bs => b % 256 + 256 * bytesToNatLE bs

/-- Decode `n` consecutive `w`-byte little-endian values from a byte list. -/
def decodeVals (w : Nat) : Nat → List Nat → List Nat
  | 0, _ => []
  | n + 1, bs => bytesToNatLE (bs.take w) :: decodeVals w n (bs.drop w)

/-- Two's-complement reading of a `w`-bit unsigned value. -/
def toSignedVal (w : Nat) (v : Nat) : Int :=
  if (v : Int) < 2 ^ (w - 1) then (v : Int) else (v : Int) - 2 ^ w

/-- `TransposeOp::downloadPermutationVector<T>`: transfer
`numDims * sizeof(T)` bytes from device memory, synchronize the stream,
interpret them as `numDims` values of `T`, and copy them into a host `int`
vector. Returns the decoded permutation and the transfer/sync events. -/
def downloadPermutationVector (t : Type_t) (deviceBytes : List Nat)
    (numDims : Nat) : List Int × List Event :=
  let w := t.sizeofBytes
  let raw := decodeVals w numDims deviceBytes
  let vals := raw.map fun v =>
    castToCInt (if t.isSigned then toSignedVal (8 * w) v else (v : Int))
  (vals, [Event.download (numDims * w), Event.sync])

/-- `TransposeOp::permutation`: the stored static permutation when present;
otherwise `Expects` two input tensors and dispatches on the recorded
element type, downloading the permutation for the eight integer kinds and
failing with `unsupportedType` for any other kind. Threads the adapter
state through (the method reads but never writes it). -/
def TransposeOp.permutationSt (op : TransposeOp)
    (inputTensors : List (List Nat)) :
    Except Err (List Int × List Event) × TransposeOp :=
  match op.outputMode_ with
  | some m => (.ok (m, []), op)
  | none =>
    if inputTensors.length = 2 then
      match op.permutationElementsType_ with
      | .i8 => (.ok (downloadPermutationVector .i8
          (inputTensors.getD 1 []) op.dimsNumber_), op)
      | .i16 => (.ok (downloadPermutationVector .i16
          (inputTensors.getD 1 []) op.dimsNumber_), op)
      | .i32 => (.ok (downloadPermutationVector .i32
          (inputTensors.getD 1 []) op.dimsNumber_), op)
      | .i64 => (.ok (downloadPermutationVector .i64
          (inputTensors.getD 1 []) op.dimsNumber_), op)
      | .u8 => (.ok (downloadPermutationVector .u8
          (inputTensors.getD 1 []) op.dimsNumber_), op)
      | .u16 => (.ok (downloadPermutationVector .u16
          (inputTensors.getD 1 []) op.dimsNumber_), op)
      | .u32 => (.ok (downloadPermutationVector .u32
          (inputTensors.getD 1 []) op.dimsNumber_), op)
      | .u64 => (.ok (downloadPermutationVector .u64
          (inputTensors.getD 1 []) op.dimsNumber_), op)
      | _ => (.error .unsupportedType, op)
    else (.error .preconditionViolation, op)

/-- `TransposeOp::Execute`: `Expects` one or two input tensors and exactly
one output tensor, resolves the permutation, initializes the input and
output descriptors, and invokes `cutensorPermutation` with the identity
scalar, the input mode, and the resolved output mode. `primitiveOk` models
the status returned by the external primitive. Returns the event trace of
the call, the call result, and the adapter state after the call. -/
def TransposeOp.ExecuteSt (op : TransposeOp) (primitiveOk : Bool)
    (stream : Nat) (inputTensors : List (List Nat))
    (outputTensors : List Nat) :
    (List Event × Except Err Unit) × TransposeOp :=
  if (inputTensors.length = 1 ∨ inputTensors.length = 2) ∧
      outputTensors.length = 1 then
    match op.permutationSt inputTensors with
    | (.ok (outputMode, resolveEvents), op1) =>
      let inputDesc := Event.initDescriptor op1.dimsNumber_
        op1.inputExtents_ op1.inputStrides_ op1.inputElementsType_
      let outputDesc := Event.initDescriptor op1.dimsNumber_
        op1.outputExtents_ op1.outputStrides_ op1.inputElementsType_
      let callEv := Event.permuteCall (numericConstOne op1.inputElementsType_)
        op1.inputMode_ outputMode op1.inputElementsType_ stream
      ((resolveEvents ++ [inputDesc, outputDesc, callEv],
        if primitiveOk then .ok () else .error .primitiveFailure), op1)
    | (.error e, op1) => (([], .error e), op1)
  else (([], .error .preconditionViolation), op)

/-- The event trace of one execution call. -/
def TransposeOp.ExecuteEvents (op : TransposeOp) (primitiveOk : Bool)
    (stream : Nat) (inputTensors : List (List Nat))
    (outputTensors : List Nat) : List Event :=
  (op.ExecuteSt primitiveOk stream inputTensors outputTensors).1.1

/-- The result of one execution call. -/
def TransposeOp.ExecuteResult (op : TransposeOp) (primitiveOk : Bool)
    (stream : Nat) (inputTensors : List (List Nat))
    (outputTensors : List Nat) : Except Err Unit :=
  (op.ExecuteSt primitiveOk stream inputTensors outputTensors).1.2

/-- Concrete adapter for the C3 witness: rank-3 node, input shape
`[2, 3, 4]`, output shape `[4, 3, 2]`, no second input. -/
def c3op : TransposeOp :=
  { inputExtents_ := [2, 3, 4]
    dimsNumber_ := 3
    outputExtents_ := [4, 3, 2]
    inputStrides_ := [12, 4, 1]
    outputStrides_ := [6, 2, 1]
    inputMode_ := [0, 1, 2]
    outputMode_ := some [2, 1, 0]
    extents_ := [(0, 2), (1, 3), (2, 4)]
    inputElementsType_ := .f32
    permutationElementsType_ := .i32 }

/-- Concrete adapter for the C4 witness: rank-1 node with a runtime
(f32-typed) permutation input. -/
def c4op : TransposeOp :=
  { inputExtents_ := [2]
    dimsNumber_ := 1
    outputExtents_ := [2]
    inputStrides_ := [1]
    outputStrides_ := [1]
    inputMode_ := [0]
    outputMode_ := none
    extents_ := [(0, 2)]
    inputElementsType_ := .f32
    permutationElementsType_ := .f32 }

/-- Concrete adapter for the C6 witness: rank-2 node with a runtime
(i32-typed) permutation input. -/
def c6op : TransposeOp :=
  { inputExtents_ := [2, 3]
    dimsNumber_ := 2
    outputExtents_ := [3, 2]
    inputStrides_ := [3, 1]
    outputStrides_ := [2, 1]
    inputMode_ := [0, 1]
    outputMode_ := none
    extents_ := [(0, 2), (1, 3)]
    inputElementsType_ := .f32
    permutationElementsType_ := .i32 }

/-- Concrete adapter for the C7 witness: rank-1 node without a second
input. -/
def c7op : TransposeOp :=
  { inputExtents_ := [2]
    dimsNumber_ := 1
    outputExtents_ := [2]
    inputStrides_ := [1]
    outputStrides_ := [1]
    inputMode_ := [0]
    outputMode_ := some [0]
    extents_ := [(0, 2)]
    inputElementsType_ := .f32
    permutationElementsType_ := .i32 }

/-- Concrete adapter for the C8 counterexample: rank-1 node without a
second input. -/
def c8op : TransposeOp :=
  { inputExtents_ := [2]
    dimsNumber_ := 1
    outputExtents_ := [2]
    inputStrides_ := [1]
    outputStrides_ := [1]
    inputMode_ := [0]
    outputMode_ := some [0]
    extents_ := [(0, 2)]
    inputElementsType_ := .f32
    permutationElementsType_ := .i32 }

/-! ### Helper reduction lemmas -/

/-- Reduction of a successful `Except` bind. -/
@[simp]
theorem okBind {α β : Type} (a : α) (f : α → Except Err β) :
    (Except.ok a >>= f) = f a := rfl

/-- Reduction of a failed `Except` bind. -/
@[simp]
theorem errBind {α β : Type} (e : Err) (f : α → Except Err β) :
    ((Except.error e : Except Err α) >>= f) = .error e := rfl

/-- `pure` on `Except` is `ok`. -/
@[simp]
theorem pureEq {α : Type} (a : α) : (pure a : Except Err α) = .ok a := rfl

/-! ### Characterizations of construction -/

/-- Construction on a node with exactly one input. -/
theorem construct_single (i0 : NodeInput) (outS : List Nat) :
    TransposeOp.construct ⟨[i0], outS⟩ = .ok {
      inputExtents_ := i0.shape.map Int.ofNat
      dimsNumber_ := i0.shape.length
      outputExtents_ := outS.map Int.ofNat
      inputStrides_ := (List.range i0.shape.length).map
        fun i => Int.ofNat (row_major_stride i0.shape i)
      outputStrides_ := (List.range outS.length).map
        fun i => Int.ofNat (row_major_stride outS i)
      inputMode_ := extractInputMode i0.shape.length
      outputMode_ := some ((extractInputMode i0.shape.length).reverse)
      extents_ := extractExtents (i0.shape.map Int.ofNat)
      inputElementsType_ := i0.etype
      permutationElementsType_ := .i32 } := by
  simp [TransposeOp.construct, extractInputExtents, extractOutputExtents,
    extractInputStrides, extractOutputStrides, tryToExtractPermutation,
    isPermutationTensorSpecified, extractPermutationElementsType,
    NgraphNode.input?, extractInputMode]

/-- Construction on a node with exactly two inputs. -/
theorem construct_double (i0 i1 : NodeInput) (outS : List Nat) :
    TransposeOp.construct ⟨[i0, i1], outS⟩ = .ok {
      inputExtents_ := i0.shape.map Int.ofNat
      dimsNumber_ := i0.shape.length
      outputExtents_ := outS.map Int.ofNat
      inputStrides_ := (List.range i0.shape.length).map
        fun i => Int.ofNat (row_major_stride i0.shape i)
      outputStrides_ := (List.range outS.length).map
        fun i => Int.ofNat (row_major_stride outS i)
      inputMode_ := extractInputMode i0.shape.length
      outputMode_ := match i1.producer with
        | .constant vals => some (cast_vector_int vals)
        | .nonConstant => none
      extents_ := extractExtents (i0.shape.map Int.ofNat)
      inputElementsType_ := i0.etype
      permutationElementsType_ := i1.etype } := by
  cases h : i1.producer <;>
    simp [TransposeOp.construct, extractInputExtents, extractOutputExtents,
      extractInputStrides, extractOutputStrides, tryToExtractPermutation,
      isPermutationTensorSpecified, extractPermutationElementsType,
      NgraphNode.input?, h, extractInputMode]

/-! ### Claims -/

/-- C1: For every rank r, when the graph node has exactly one input, the
output-axis permutation is resolved at construction time (stored in the
constructed adapter's static `outputMode_` field) and equals the reverse of
the identity order `[r-1, r-2, ..., 1, 0]`: it has length r and its i-th
element is `r - 1 - i`. -/
theorem C1_no_second_input_reverse_identity (i0 : NodeInput) (outS : List Nat) :
    ∃ op : TransposeOp, TransposeOp.construct ⟨[i0], outS⟩ = .ok op ∧
      ∃ l : List Int, op.outputMode_ = some l ∧
        l.length = i0.shape.length ∧
        ∀ i, ∀ h : i < l.length,
          l.get ⟨i, h⟩ = Int.ofNat (i0.shape.length - 1 - i) := by
  refine ⟨_, construct_single i0 outS,
    (extractInputMode i0.shape.length).reverse, rfl, ?_, ?_⟩
  · simp [extractInputMode]
  · intro i h
    rw [List.get_eq_getElem, List.getElem_reverse]
    simp only [extractInputMode] at h ⊢
    rw [List.getElem_map, List.getElem_range]
    simp at h
    simp [h]

/-- Construction on a node with no inputs fails. -/
theorem construct_empty (outS : List Nat) :
    TransposeOp.construct ⟨[], outS⟩ = .error .invalidGraph := by
  simp [TransposeOp.construct, extractInputExtents, NgraphNode.input?]

/-- Construction on a node with three or more inputs fails. -/
theorem construct_many (i0 i1 i2 : NodeInput) (rest : List NodeInput)
    (outS : List Nat) :
    TransposeOp.construct ⟨i0 :: i1 :: i2 :: rest, outS⟩ =
      .error .invalidGraph := by
  have h1 : ¬((i0 :: i1 :: i2 :: rest).length = 1 ∨
      (i0 :: i1 :: i2 :: rest).length = 2) := by
    simp only [List.length_cons]
    omega
  simp [TransposeOp.construct, extractInputExtents, extractOutputExtents,
    extractInputStrides, extractOutputStrides, tryToExtractPermutation,
    isPermutationTensorSpecified, NgraphNode.input?, h1]

/-- C5: Construction fails with `invalidGraph` exactly when the node's
input count is not 1 and not 2; in particular it fails for 0 inputs and
for 3 or more inputs, and does not fail this way for 1 or 2 inputs. -/
theorem C5_construction_cardinality (node : NgraphNode) :
    TransposeOp.construct node = .error .invalidGraph ↔
      ¬(node.inputs.length = 1 ∨ node.inputs.length = 2) := by
  obtain ⟨inputs, outS⟩ := node
  match inputs with
  | [] => simp [construct_empty]
  | [i0] => simp [construct_single]
  | [i0, i1] => simp [construct_double]
  | i0 :: i1 :: i2 :: rest =>
    simp only [construct_many, List.length_cons]
    constructor
    · intro _
      omega
    · intro _
      trivial

/-- A row-major stride over a shape equals the product of the int extents
after the axis. -/
theorem row_major_stride_eq_prod (shape : List Nat) (i : Nat) :
    (Int.ofNat (row_major_stride shape i)) =
      ((shape.map Int.ofNat).drop (i + 1)).prod := by
  unfold row_major_stride
  rw [← List.prod_eq_foldl, List.prod_reverse, ← List.map_drop]
  simp [Int.ofNat_eq_natCast, Nat.cast_list_prod]
  rfl

/-- C3: For every constructed adapter, the input and output extents equal
the node's declared input and output shapes element-wise, the stride
vectors have the same length as their extent vectors, and both stride
vectors are row-major: stride i equals the product of the extents after
axis i (so the last stride is 1). -/
theorem C3_extents_and_row_major_strides (i0 : NodeInput)
    (rest : List NodeInput) (outS : List Nat) (op : TransposeOp)
    (h : TransposeOp.construct ⟨i0 :: rest, outS⟩ = .ok op) :
    op.inputExtents_ = i0.shape.map Int.ofNat ∧
    op.outputExtents_ = outS.map Int.ofNat ∧
    op.inputStrides_.length = op.inputExtents_.length ∧
    op.outputStrides_.length = op.outputExtents_.length ∧
    (∀ i, ∀ hi : i < op.inputStrides_.length,
      op.inputStrides_.get ⟨i, hi⟩ = (op.inputExtents_.drop (i + 1)).prod) ∧
    (∀ i, ∀ hi : i < op.outputStrides_.length,
      op.outputStrides_.get ⟨i, hi⟩ = (op.outputExtents_.drop (i + 1)).prod) := by
  have hop : op.inputExtents_ = i0.shape.map Int.ofNat ∧
      op.outputExtents_ = outS.map Int.ofNat ∧
      op.inputStrides_ = (List.range i0.shape.length).map
        (fun i => Int.ofNat (row_major_stride i0.shape i)) ∧
      op.outputStrides_ = (List.range outS.length).map
        (fun i => Int.ofNat (row_major_stride outS i)) := by
    match rest with
    | [] =>
      rw [construct_single] at h
      cases h
      exact ⟨rfl, rfl, rfl, rfl⟩
    | [i1] =>
      rw [construct_double] at h
      cases h
      exact ⟨rfl, rfl, rfl, rfl⟩
    | i1 :: i2 :: rest2 =>
      exfalso
      rw [construct_many] at h
      exact Except.noConfusion h
  obtain ⟨he1, he2, hs1, hs2⟩ := hop
  refine ⟨he1, he2, ?_, ?_, ?_, ?_⟩
  · simp [hs1, he1]
  · simp [hs2, he2]
  · intro i hi
    rw [List.get_eq_getElem]
    simp only [hs1, he1] at hi ⊢
    rw [List.getElem_map, List.getElem_range]
    exact row_major_stride_eq_prod i0.shape i
  · intro i hi
    rw [List.get_eq_getElem]
    simp only [hs2, he2] at hi ⊢
    rw [List.getElem_map, List.getElem_range]
    exact row_major_stride_eq_prod outS i

/-- `wrapSigned` is the identity on values in the signed range. -/
theorem wrapSigned_eq_of (w : Nat) (hw : 1 ≤ w) (v : Int)
    (h1 : -(2 ^ (w - 1)) ≤ v) (h2 : v < 2 ^ (w - 1)) : wrapSigned w v = v := by
  unfold wrapSigned
  have hp : (2 : Int) ^ w = 2 ^ (w - 1) * 2 := by
    conv_lhs => rw [show w = (w - 1) + 1 by omega]
    rw [pow_succ]
  have hpos : (0 : Int) < 2 ^ (w - 1) := pow_pos (by norm_num) _
  rw [Int.emod_eq_of_lt (by omega) (by omega)]
  omega

/-- Casting to C `int` is the identity on values below `2^31`. -/
theorem castToCInt_eq (v : Int) (h0 : 0 ≤ v) (h2 : v < 2 ^ 31) :
    castToCInt v = v := by
  have := wrapSigned_eq_of 32 (by norm_num) v ?_ ?_
  · exact this
  · norm_num
    omega
  · norm_num
    omega

/-- Encoding into an integer element kind is the identity on values the
kind can represent. -/
theorem convertTo_eq_of_fits (t : Type_t) (ht : t.isSupportedInteger = true)
    (v : Int) (h0 : 0 ≤ v) (hfit : v ≤ t.maxEncodable) : t.convertTo v = v := by
  cases t <;>
    simp_all [Type_t.convertTo, Type_t.isSupportedInteger, Type_t.isSigned,
      Type_t.sizeofBytes, Type_t.maxEncodable, wrapUnsigned, wrapSigned] <;>
    omega

/-- C2: For every permutation sequence and every one of the eight supported
integer element kinds, a constant second input holding the sequence encoded
in that kind (each element representable by the kind) resolves at
construction time to exactly the original sequence, identically for all
eight kinds, and execution performs no device-to-host transfer. -/
theorem C2_constant_permutation_roundtrip (ps : List Nat) (t : Type_t)
    (ht : t.isSupportedInteger = true)
    (hfit : ∀ p ∈ ps, (p : Int) ≤ t.maxEncodable ∧ (p : Int) < 2 ^ 31)
    (i0 : NodeInput) (permShape outS : List Nat) :
    ∃ op : TransposeOp,
      TransposeOp.construct
        ⟨[i0, ⟨permShape, t,
          .constant (ps.map fun p => t.convertTo (Int.ofNat p))⟩], outS⟩ =
        .ok op ∧
      op.outputMode_ = some (ps.map Int.ofNat) ∧
      ∀ primitiveOk stream inputTensors outputTensors b,
        Event.download b ∉
          op.ExecuteEvents primitiveOk stream inputTensors outputTensors := by
  refine ⟨_, construct_double i0 ⟨permShape, t,
    .constant (ps.map fun p => t.convertTo (Int.ofNat p))⟩ outS, ?_, ?_⟩
  · simp only [cast_vector_int, List.map_map]
    congr 1
    apply List.map_congr_left
    intro p hp
    have h := hfit p hp
    simp only [Function.comp]
    show castToCInt (t.convertTo ((p : Int))) = ((p : Int))
    rw [convertTo_eq_of_fits t ht _ (Int.ofNat_nonneg p) h.1]
    exact castToCInt_eq _ (Int.ofNat_nonneg p) h.2
  · intro primitiveOk stream inputTensors outputTensors b
    simp only [TransposeOp.ExecuteEvents, TransposeOp.ExecuteSt,
      TransposeOp.permutationSt]
    split
    · simp [numericConstOne]
    · simp

/-- Witness for C2: the permutation [1, 0] encoded as i8 on a concrete
rank-2 node. -/
theorem C2_constant_permutation_roundtrip_witness :
    (Type_t.isSupportedInteger .i8 = true) ∧
    (∀ p ∈ ([1, 0] : List Nat),
      (p : Int) ≤ Type_t.maxEncodable .i8 ∧ (p : Int) < 2 ^ 31) ∧
    ∃ op : TransposeOp,
      TransposeOp.construct
        ⟨[⟨[2, 3], .f32, .nonConstant⟩, ⟨[2], .i8,
          .constant (([1, 0] : List Nat).map
            fun p => Type_t.convertTo .i8 (Int.ofNat p))⟩], [3, 2]⟩ =
        .ok op ∧
      op.outputMode_ = some (([1, 0] : List Nat).map Int.ofNat) ∧
      ∀ primitiveOk stream inputTensors outputTensors b,
        Event.download b ∉
          op.ExecuteEvents primitiveOk stream inputTensors outputTensors :=
  ⟨rfl, by decide,
    C2_constant_permutation_roundtrip [1, 0] .i8 rfl (by decide)
      ⟨[2, 3], .f32, .nonConstant⟩ [2] [3, 2]⟩

/-- Witness for C3 at the concrete rank-3 node with shape `[2, 3, 4]` and
output shape `[4, 3, 2]`. -/
theorem C3_extents_and_row_major_strides_witness :
    TransposeOp.construct ⟨[⟨[2, 3, 4], .f32, .nonConstant⟩], [4, 3, 2]⟩ =
      .ok c3op ∧
    (c3op.inputExtents_ = ([2, 3, 4] : List Nat).map Int.ofNat ∧
      c3op.outputExtents_ = ([4, 3, 2] : List Nat).map Int.ofNat ∧
      c3op.inputStrides_.length = c3op.inputExtents_.length ∧
      c3op.outputStrides_.length = c3op.outputExtents_.length ∧
      (∀ i, ∀ hi : i < c3op.inputStrides_.length,
        c3op.inputStrides_.get ⟨i, hi⟩ =
          (c3op.inputExtents_.drop (i + 1)).prod) ∧
      (∀ i, ∀ hi : i < c3op.outputStrides_.length,
        c3op.outputStrides_.get ⟨i, hi⟩ =
          (c3op.outputExtents_.drop (i + 1)).prod)) :=
  ⟨rfl, C3_extents_and_row_major_strides
    ⟨[2, 3, 4], .f32, .nonConstant⟩ [] [4, 3, 2] c3op rfl⟩

/-- The state component of `permutationSt` is always the unchanged
adapter. -/
theorem permutationSt_snd (op : TransposeOp) (ins : List (List Nat)) :
    (op.permutationSt ins).2 = op := by
  unfold TransposeOp.permutationSt
  cases op.outputMode_ <;> simp
  split
  · split <;> rfl
  · rfl

/-- On the runtime path with a supported integer kind, `permutationSt`
downloads the permutation vector. -/
theorem permutationSt_runtime (op : TransposeOp) (ins : List (List Nat))
    (hmode : op.outputMode_ = none)
    (ht : op.permutationElementsType_.isSupportedInteger = true)
    (hins : ins.length = 2) :
    op.permutationSt ins =
      (.ok (downloadPermutationVector op.permutationElementsType_
        (ins.getD 1 []) op.dimsNumber_), op) := by
  cases hm : op.permutationElementsType_ <;>
    simp_all [TransposeOp.permutationSt, Type_t.isSupportedInteger, hmode,
      hins]

/-- C4: When the permutation is runtime-resolved (second input present with
a non-constant producer) and the call supplies matching tensor counts, the
call fails with `unsupportedType` exactly when the recorded element type of
the permutation tensor is not one of the eight supported integer kinds. -/
theorem C4_runtime_type_gate (i0 : NodeInput) (permShape outS : List Nat)
    (t : Type_t) (op : TransposeOp)
    (h : TransposeOp.construct
      ⟨[i0, ⟨permShape, t, .nonConstant⟩], outS⟩ = .ok op)
    (primitiveOk : Bool) (stream : Nat) (inputTensors : List (List Nat))
    (outputTensors : List Nat) (hins : inputTensors.length = 2)
    (houts : outputTensors.length = 1) :
    (op.ExecuteResult primitiveOk stream inputTensors outputTensors =
      .error .unsupportedType) ↔ t.isSupportedInteger = false := by
  rw [construct_double] at h
  cases h
  cases t <;> cases primitiveOk <;>
    simp [TransposeOp.ExecuteResult, TransposeOp.ExecuteSt,
      TransposeOp.permutationSt, hins, houts, Type_t.isSupportedInteger]

/-- Witness for C4: a runtime permutation tensor recorded as f32 makes the
call fail with `unsupportedType`. -/
theorem C4_runtime_type_gate_witness :
    TransposeOp.construct
      ⟨[⟨[2], .f32, .nonConstant⟩, ⟨[1], .f32, .nonConstant⟩], [2]⟩ =
      .ok c4op ∧
    ([[5], [9]] : List (List Nat)).length = 2 ∧
    ([0] : List Nat).length = 1 ∧
    ((c4op.ExecuteResult true 0 [[5], [9]] [0] = .error .unsupportedType) ↔
      Type_t.isSupportedInteger .f32 = false) :=
  ⟨rfl, rfl, rfl,
    C4_runtime_type_gate ⟨[2], .f32, .nonConstant⟩ [1] [2] .f32 c4op rfl
      true 0 [[5], [9]] [0] rfl rfl⟩

/-- The input mode of every constructed adapter is the identity axis
ordering. -/
theorem constructed_inputMode (node : NgraphNode) (op : TransposeOp)
    (h : TransposeOp.construct node = .ok op) :
    op.inputMode_ = (List.range op.dimsNumber_).map Int.ofNat := by
  obtain ⟨inputs, outS⟩ := node
  match inputs with
  | [] =>
    rw [construct_empty] at h
    exact Except.noConfusion h
  | [i0] =>
    rw [construct_single] at h
    cases h
    rfl
  | [i0, i1] =>
    rw [construct_double] at h
    cases h
    rfl
  | i0 :: i1 :: i2 :: rest =>
    rw [construct_many] at h
    exact Except.noConfusion h

/-- C6: On the runtime-resolved path, the event trace of an execution call
is exactly one device-to-host transfer of `rank * sizeof(type)` bytes,
then exactly one stream synchronization, then the two descriptor
initializations, then the primitive invocation; in particular resolution
strictly precedes the output-descriptor construction, which strictly
precedes the primitive invocation. -/
theorem C6_runtime_transfer_then_sync_then_call (i0 : NodeInput)
    (permShape outS : List Nat) (t : Type_t) (op : TransposeOp)
    (h : TransposeOp.construct
      ⟨[i0, ⟨permShape, t, .nonConstant⟩], outS⟩ = .ok op)
    (ht : t.isSupportedInteger = true) (primitiveOk : Bool) (stream : Nat)
    (ins : List (List Nat)) (outs : List Nat)
    (hins : ins.length = 2) (houts : outs.length = 1) :
    ∃ outMode : List Int,
      op.ExecuteEvents primitiveOk stream ins outs =
        [.download (i0.shape.length * t.sizeofBytes), .sync,
         .initDescriptor op.dimsNumber_ op.inputExtents_ op.inputStrides_
           op.inputElementsType_,
         .initDescriptor op.dimsNumber_ op.outputExtents_ op.outputStrides_
           op.inputElementsType_,
         .permuteCall (numericConstOne op.inputElementsType_) op.inputMode_
           outMode op.inputElementsType_ stream] := by
  rw [construct_double] at h
  cases h
  refine ⟨(downloadPermutationVector t (ins.getD 1 []) i0.shape.length).1, ?_⟩
  cases t <;>
    simp_all [TransposeOp.ExecuteEvents, TransposeOp.ExecuteSt,
      TransposeOp.permutationSt, Type_t.isSupportedInteger, hins, houts,
      downloadPermutationVector, Type_t.sizeofBytes]

/-- Witness for C6: a concrete rank-2 node with an i32 runtime permutation
tensor. -/
theorem C6_runtime_transfer_then_sync_then_call_witness :
    TransposeOp.construct
      ⟨[⟨[2, 3], .f32, .nonConstant⟩, ⟨[2], .i32, .nonConstant⟩], [3, 2]⟩ =
      .ok c6op ∧
    Type_t.isSupportedInteger .i32 = true ∧
    ([[1], [1, 0, 0, 0, 0, 0, 0, 0]] : List (List Nat)).length = 2 ∧
    ([0] : List Nat).length = 1 ∧
    ∃ outMode : List Int,
      c6op.ExecuteEvents true 0 [[1], [1, 0, 0, 0, 0, 0, 0, 0]] [0] =
        [.download (([2, 3] : List Nat).length * Type_t.sizeofBytes .i32),
         .sync,
         .initDescriptor c6op.dimsNumber_ c6op.inputExtents_
           c6op.inputStrides_ c6op.inputElementsType_,
         .initDescriptor c6op.dimsNumber_ c6op.outputExtents_
           c6op.outputStrides_ c6op.inputElementsType_,
         .permuteCall (numericConstOne c6op.inputElementsType_)
           c6op.inputMode_ outMode c6op.inputElementsType_ 0] :=
  ⟨rfl, rfl, rfl, rfl,
    C6_runtime_transfer_then_sync_then_call ⟨[2, 3], .f32, .nonConstant⟩
      [2] [3, 2] .i32 c6op rfl rfl true 0
      [[1], [1, 0, 0, 0, 0, 0, 0, 0]] [0] rfl rfl⟩

/-- C7: Whenever the permutation resolves, the primitive is invoked with
the input descriptor paired with the identity axis ordering
`[0, ..., r-1]`, the output descriptor paired with the resolved output
permutation, and the multiplicative identity scalar of the data tensor's
element type, on the caller-supplied stream — regardless of how the
permutation was resolved. -/
theorem C7_primitive_invocation_args (node : NgraphNode) (op : TransposeOp)
    (h : TransposeOp.construct node = .ok op)
    (primitiveOk : Bool) (stream : Nat) (ins : List (List Nat))
    (outs : List Nat) (m : List Int) (revs : List Event)
    (hperm : op.permutationSt ins = (.ok (m, revs), op))
    (hins : ins.length = 1 ∨ ins.length = 2) (houts : outs.length = 1) :
    op.ExecuteEvents primitiveOk stream ins outs =
      revs ++
      [.initDescriptor op.dimsNumber_ op.inputExtents_ op.inputStrides_
         op.inputElementsType_,
       .initDescriptor op.dimsNumber_ op.outputExtents_ op.outputStrides_
         op.inputElementsType_,
       .permuteCall (numericConstOne op.inputElementsType_)
         ((List.range op.dimsNumber_).map Int.ofNat) m
         op.inputElementsType_ stream] := by
  have him := constructed_inputMode node op h
  simp only [TransposeOp.ExecuteEvents, TransposeOp.ExecuteSt]
  rw [if_pos ⟨hins, houts⟩, hperm]
  simp [him]

/-- Witness for C7 at a concrete rank-1 node with a statically resolved
permutation. -/
theorem C7_primitive_invocation_args_witness :
    TransposeOp.construct ⟨[⟨[2], .f32, .nonConstant⟩], [2]⟩ = .ok c7op ∧
    c7op.permutationSt [[7]] = (.ok ([0], []), c7op) ∧
    (([[7]] : List (List Nat)).length = 1 ∨
      ([[7]] : List (List Nat)).length = 2) ∧
    ([0] : List Nat).length = 1 ∧
    c7op.ExecuteEvents true 0 [[7]] [0] =
      [] ++
      [.initDescriptor c7op.dimsNumber_ c7op.inputExtents_ c7op.inputStrides_
         c7op.inputElementsType_,
       .initDescriptor c7op.dimsNumber_ c7op.outputExtents_
         c7op.outputStrides_ c7op.inputElementsType_,
       .permuteCall (numericConstOne c7op.inputElementsType_)
         ((List.range c7op.dimsNumber_).map Int.ofNat) [0]
         c7op.inputElementsType_ 0] :=
  ⟨rfl, rfl, Or.inl rfl, rfl,
    C7_primitive_invocation_args ⟨[⟨[2], .f32, .nonConstant⟩], [2]⟩ c7op rfl
      true 0 [[7]] [0] [0] [] rfl (Or.inl rfl) rfl⟩

/-- C8 counterexample: an adapter built from a node with a single input
(so no second input exists) executed with two input tensors succeeds,
although the input-tensor count does not match the absence of a second
input — contradicting the claim that any such mismatch fails. -/
theorem C8_counterexample_mismatched_count_succeeds :
    TransposeOp.construct ⟨[⟨[2], .f32, .nonConstant⟩], [2]⟩ = .ok c8op ∧
    c8op.ExecuteResult true 0 [[7], [9]] [0] = .ok () := ⟨rfl, rfl⟩

/-- C8 (amended): An execution call fails with the tensor-count
precondition violation exactly when the input-tensor count is not 1 or 2,
or the output-tensor count is not 1, or the permutation is runtime-resolved
and the input-tensor count is not 2. A count that merely fails to match
whether the node has a second input does not by itself make the call
fail. -/
theorem C8_amended_precondition (op : TransposeOp) (primitiveOk : Bool)
    (stream : Nat) (ins : List (List Nat)) (outs : List Nat) :
    (op.ExecuteResult primitiveOk stream ins outs =
      .error .preconditionViolation) ↔
    ¬((ins.length = 1 ∨ ins.length = 2) ∧ outs.length = 1 ∧
      (op.outputMode_.isSome ∨ ins.length = 2)) := by
  simp only [TransposeOp.ExecuteResult, TransposeOp.ExecuteSt]
  by_cases h1 : (ins.length = 1 ∨ ins.length = 2) ∧ outs.length = 1
  · rw [if_pos h1]
    cases hm : op.outputMode_ with
    | some mval =>
      cases primitiveOk <;>
        simp [TransposeOp.permutationSt, hm, h1]
    | none =>
      by_cases h2 : ins.length = 2
      · cases hm2 : op.permutationElementsType_ <;> cases primitiveOk <;>
          simp [TransposeOp.permutationSt, hm, hm2, h1, h2]
      · simp [TransposeOp.permutationSt, hm, h1, h2]
  · rw [if_neg h1]
    constructor
    · intro _ hc
      exact h1 ⟨hc.1, hc.2.1⟩
    · intro _
      rfl

/-- C9: No execution call mutates the adapter state built at construction
time: whatever the outcome, the adapter after the call is the adapter
before it, and in particular the extents, strides, rank, input mode,
stored static permutation, and the two recorded element types are
unchanged. -/
theorem C9_no_adapter_state_mutation (op : TransposeOp) (primitiveOk : Bool)
    (stream : Nat) (ins : List (List Nat)) (outs : List Nat) :
    (op.ExecuteSt primitiveOk stream ins outs).2 = op ∧
    ((op.ExecuteSt primitiveOk stream ins outs).2.inputExtents_ =
        op.inputExtents_ ∧
      (op.ExecuteSt primitiveOk stream ins outs).2.outputExtents_ =
        op.outputExtents_ ∧
      (op.ExecuteSt primitiveOk stream ins outs).2.inputStrides_ =
        op.inputStrides_ ∧
      (op.ExecuteSt primitiveOk stream ins outs).2.outputStrides_ =
        op.outputStrides_ ∧
      (op.ExecuteSt primitiveOk stream ins outs).2.dimsNumber_ =
        op.dimsNumber_ ∧
      (op.ExecuteSt primitiveOk stream ins outs).2.inputMode_ =
        op.inputMode_ ∧
      (op.ExecuteSt primitiveOk stream ins outs).2.outputMode_ =
        op.outputMode_ ∧
      (op.ExecuteSt primitiveOk stream ins outs).2.inputElementsType_ =
        op.inputElementsType_ ∧
      (op.ExecuteSt primitiveOk stream ins outs).2.permutationElementsType_ =
        op.permutationElementsType_) := by
  have hmain : (op.ExecuteSt primitiveOk stream ins outs).2 = op := by
    have hsnd := permutationSt_snd op ins
    unfold TransposeOp.ExecuteSt
    split
    · rcases hp : op.permutationSt ins with ⟨res, op1⟩
      have hop1 : op1 = op := by
        rw [hp] at hsnd
        exact hsnd
      cases res with
      | ok pr =>
        rcases pr with ⟨m, revs⟩
        simp [hop1]
      | error e => simp [hop1]
    · rfl
  refine ⟨hmain, ?_, ?_, ?_, ?_, ?_, ?_, ?_, ?_, ?_⟩ <;> rw [hmain]

/-- C10: When the second input's producer is a compile-time constant, its
values are cast to a host integer permutation at construction with no
validation of the constant's element type: for every element type,
including the floating ones, construction succeeds, the cast values become
the static permutation, and no execution call ever fails with
`unsupportedType`. -/
theorem C10_constant_path_never_unsupported (t : Type_t) (vals : List Int)
    (i0 : NodeInput) (permShape outS : List Nat) :
    ∃ op : TransposeOp,
      TransposeOp.construct
        ⟨[i0, ⟨permShape, t, .constant vals⟩], outS⟩ = .ok op ∧
      op.outputMode_ = some (cast_vector_int vals) ∧
      ∀ primitiveOk stream ins outs,
        op.ExecuteResult primitiveOk stream ins outs ≠
          .error .unsupportedType := by
  refine ⟨_, construct_double i0 ⟨permShape, t, .constant vals⟩ outS, rfl, ?_⟩
  intro primitiveOk stream ins outs
  simp only [TransposeOp.ExecuteResult, TransposeOp.ExecuteSt,
    TransposeOp.permutationSt]
  split
  · cases primitiveOk <;> simp
  · simp

end CUDAPlugin
